import Mathlib

/-!
Verification of the state-reconciliation engine and mirror device checks of
the pcdsdevices repository.  Pure parts of `pcdsdevices/mirror.py` are
embedded directly; the state engine (`pcdsdevices/state.py`) is not present
in the source tree, only its test suite (`tests/test_state.py`), so those
definitions are modelled from the specification and pinned down by the
concrete behaviours the in-repo tests assert.
-/

namespace Pcds

/-! ## Composite state resolution

Modelled from the spec: `pcdsdevices/state.py` is absent from the sources;
`PVStatePositioner._get_state` derives one logical state from the per-signal
rule tokens.  Per spec section 4.1 and the concrete scenario of section 8
(confirmed by `tests/test_state.py::test_pvstate_positioner_logic`): a
`defer` token does not constrain the result, a unanimous non-defer token is
the current state, an unmapped raw value or a disagreement among non-defer
tokens gives `Unknown`, and all-defer gives `Unknown` when no further rule
tier exists. -/

/-- The non-defer tokens among the looked-up rule tokens (`none` marks an
unmapped raw value and is dropped here; the caller checks for it first). -/
def namedTokens (tokens : List (Option String)) : List String :=
  (tokens.filterMap id).filter (fun t => t ≠ "defer")

/-- Modelled from the spec: composite state resolution over the tokens
produced by evaluating every signal's current raw value against its
StateRule (spec sections 3 and 4.1). -/
def resolveTokens (tokens : List (Option String)) : String :=
  if tokens.any (fun t => t = none) then "Unknown"
  else
    match namedTokens tokens with
    | [] => "Unknown"
    | s :: rest => if rest.all (fun t => t = s) then s else "Unknown"

/-! ## The LimCls device of `tests/test_state.py`

`_state_logic = {'lowlim': {0:'in', 1:'defer'}, 'highlim': {0:'out', 1:'defer'}}`,
`_states_alias = {'in': 'IN', 'out': 'OUT'}`. -/

/-- StateRule of the `lowlim` signal of `LimCls` (tests/test_state.py). -/
def lowlimRule (v : Nat) : Option String :=
  if v = 0 then some "in" else if v = 1 then some "defer" else none

/-- StateRule of the `highlim` signal of `LimCls` (tests/test_state.py). -/
def highlimRule (v : Nat) : Option String :=
  if v = 0 then some "out" else if v = 1 then some "defer" else none

/-- Composite state of `LimCls` at raw values `(low, high)`. -/
def limResolve (low high : Nat) : String :=
  resolveTokens [lowlimRule low, highlimRule high]

/-- The `_states_alias` table of `LimCls`: reported position name. -/
def limAlias (s : String) : String :=
  if s = "in" then "IN" else if s = "out" then "OUT" else s

/-- `LimCls.position` at raw values `(low, high)`. -/
def limPosition (low high : Nat) : String :=
  limAlias (limResolve low high)


/-! ## State model: enumeration, aliases, name/index lookup

Modelled from the spec: `StatePositioner` of `pcdsdevices/state.py` is absent
from the sources.  Spec sections 3 and 4.1: states are identified by a
1-based positional index with position 0 reserved for `Unknown`; aliases map
extra surface names to the same index; `defer` is an internal rule token and
never enters the enumeration.  `tests/test_state.py` pins the concrete
layout: `states_list = [None, 'UNO', 'OUT']` puts `UNO` at signal value 2 and
`OUT` at 3, with `Unknown` at 0. -/

/-- A state model: the `states_list` (with `none` marking a reserved/unused
slot) and the `_states_alias` table mapping a state name to its aliases. -/
structure StateModel where
  statesList : List (Option String)
  aliases : List (String × List String)

/-- The aliases registered for state name `s` (empty when absent). -/
def aliasesOf (m : StateModel) (s : String) : List String :=
  match m.aliases.find? (fun p => p.1 = s) with
  | some p => p.2
  | none => []

/-- Modelled from the spec: the `states_enum` table.  `Unknown` is entry 0;
the state at position `i` of `states_list` (and each of its aliases) maps to
index `i + 1`; `none` slots contribute no entry. -/
def statesEnum (m : StateModel) : List (String × Nat) :=
  ("Unknown", 0) ::
    (m.statesList.enum.flatMap fun p =>
      match p.2 with
      | none => []
      | some s => (s, p.1 + 1) :: (aliasesOf m s).map (fun a => (a, p.1 + 1)))

/-- Alias-aware name lookup: `states_enum[name]`, `none` models `KeyError`. -/
def nameToIndex (m : StateModel) (name : String) : Option Nat :=
  (statesEnum m |>.find? (fun p => p.1 = name)).map (fun p => p.2)

/-- Index lookup: the first enum entry carrying index `i` (the state's
primary name rather than an alias). -/
def indexToName (m : StateModel) (i : Nat) : Option String :=
  (statesEnum m |>.find? (fun p => p.2 = i)).map (fun p => p.1)

/-- The name a state is reported under: its first alias when one is
registered, otherwise the state name itself (`LimCls` reports `'in'` as
`'IN'`; `IntState` reports `'UNO'` as `'IN'`). -/
def reportedName (m : StateModel) (s : String) : String :=
  match aliasesOf m s with
  | a :: _ => a
  | [] => s

/-- `position` as derived from the raw value of the commanding signal: the
state whose index is the raw value, reported under its primary alias;
an unmapped raw value reads as `Unknown`. -/
def positionOf (m : StateModel) (raw : Nat) : String :=
  reportedName m ((indexToName m raw).getD "Unknown")

/-! ## Move requests

Modelled from the spec: `StatePositioner.move` / `check_value` (spec
sections 3 and 4.2): the target, a name or an index, is resolved against
the enum; resolution failure or a non-addressable target (`Unknown`, index
0) raises a validation error before any signal write; a valid target is
written to the commanding signal. -/

/-- A move target: a state name or an integer index. -/
inductive MoveTarget where
  | name (s : String)
  | idx (i : Nat)

/-- Errors of the engine (spec section 7 taxonomy). -/
inductive MoveErr where
  | validation
  | permission
deriving DecidableEq

/-- Modelled from the spec: target resolution with validation.  `Unknown`
resolves to the reserved index 0 and is rejected; an unknown name or an
index absent from the enum is rejected. -/
def checkStateTarget (m : StateModel) (t : MoveTarget) : Except MoveErr Nat :=
  match t with
  | .name s =>
    match nameToIndex m s with
    | none => .error .validation
    | some i => if i = 0 then .error .validation else .ok i
  | .idx i =>
    if i ≠ 0 ∧ (statesEnum m).any (fun p => p.2 = i) then .ok i
    else .error .validation

/-- Modelled from the spec: `move` — validate, then perform the default
action of writing the resolved index to the commanding signal.  Returns the
list of signal writes performed together with the outcome. -/
def spMove (m : StateModel) (t : MoveTarget) :
    List (String × Nat) × Except MoveErr Nat :=
  match checkStateTarget m t with
  | .error e => ([], .error e)
  | .ok i => ([("state", i)], .ok i)

/-! ### Concrete models from `tests/test_state.py` -/

/-- `LimCls`: states derived from `_state_logic` tokens (`defer` excluded),
aliases `{'in': 'IN', 'out': 'OUT'}`. -/
def limModel : StateModel :=
  { statesList := [some "in", some "out"]
    aliases := [("in", ["IN"]), ("out", ["OUT"])] }

/-- `IntState`: `states_list = [None, 'UNO', 'OUT']`,
`_states_alias = {'UNO': ['IN', 'in']}`. -/
def intModel : StateModel :=
  { statesList := [none, some "UNO", some "OUT"]
    aliases := [("UNO", ["IN", "in"])] }


/-! ## StateStatus

Modelled from the spec: `StateStatus` of `pcdsdevices/state.py` is absent
from the sources.  Spec section 4.3: on construction it evaluates the
current state — if already at target it settles success with no
subscription; otherwise it subscribes its callback to the positioner's
state-change event.  Each notification settles success exactly when the
derived state equals the target; a state change alone never fails it.
Timeout and cancellation settle it as failure.  Every settlement
unsubscribes the callback. -/

/-- The observable state of a status/positioner pair: the positioner's
subscriber set (callback handles) and the status outcome flags. -/
structure StatusState where
  subs : List Nat
  done : Bool
  success : Bool
deriving DecidableEq

/-- Events a live status can receive: a state-change notification carrying
the newly derived state, a timeout expiry, or an external cancellation. -/
inductive StatusEvent where
  | notify (state : String)
  | timeoutExpired
  | cancel

/-- Modelled from the spec: `StateStatus` construction for callback handle
`cb`, target `target`, when the derived state currently reads `current` and
the positioner's subscriber set is `subs`. -/
def mkStatus (subs : List Nat) (cb : Nat) (target current : String) :
    StatusState :=
  if current = target then ⟨subs, true, true⟩
  else ⟨cb :: subs, false, false⟩

/-- Modelled from the spec: one event delivered to the status owning
callback handle `cb` with target `target`.  A settled status ignores all
further events; a pending status settles success on a notification equal to
the target (unsubscribing `cb`), stays pending on any other notification,
and settles failure (unsubscribing `cb`) on timeout or cancellation. -/
def statusStep (cb : Nat) (target : String) (st : StatusState)
    (e : StatusEvent) : StatusState :=
  if st.done then st
  else
    match e with
    | .notify s =>
      if s = target then ⟨st.subs.filter (fun c => c ≠ cb), true, true⟩
      else st
    | .timeoutExpired => ⟨st.subs.filter (fun c => c ≠ cb), true, false⟩
    | .cancel => ⟨st.subs.filter (fun c => c ≠ cb), true, false⟩

/-- Deliver a list of events in order. -/
def runStatus (cb : Nat) (target : String) (st : StatusState)
    (events : List StatusEvent) : StatusState :=
  events.foldl (statusStep cb target) st

/-! ## `pcdsdevices/mirror.py`: value checks

Embedded from the source.  `OMMotor.check_value` rejects `None`, `NaN` and
`Inf` with `ValueError` before delegating to the `PVPositioner` soft-limit
check; `Gantry.check_value` first raises `PermissionError` when the gantry
is decoupled; `PointingMirror.check_value` raises `PermissionError` when
the X gantry is decoupled before delegating to the state check.  The
delegated superclass checks live outside this repository (ophyd /
`inout.py`) and are abstract parameters here. -/

/-- A Python float argument as classified by `np.isnan` / `np.isinf`:
`NaN`, positive or negative infinity, or an ordinary finite value. -/
inductive PyFloat where
  | nan
  | inf
  | ninf
  | finite (x : ℚ)
deriving DecidableEq

/-- `np.isnan` on a `PyFloat`. -/
def isnan : PyFloat → Bool
  | .nan => true
  | _ => false

/-- `np.isinf` on a `PyFloat` (true for both infinities). -/
def isinf : PyFloat → Bool
  | .inf => true
  | .ninf => true
  | _ => false

/-- Exceptions raised by the mirror value checks. -/
inductive CheckErr where
  | valueErr
  | limitErr
  | permissionErr
deriving DecidableEq

/-- `OMMotor.check_value` (mirror.py lines 52-75): raise `ValueError` when
the position is `None`, `NaN` or `Inf`, otherwise run the `PVPositioner`
soft-limit check `superCheck` (external to this repository). -/
def omCheckValue (superCheck : Option PyFloat → Except CheckErr Unit)
    (position : Option PyFloat) : Except CheckErr Unit :=
  match position with
  | none => .error .valueErr
  | some v =>
    if isnan v || isinf v then .error .valueErr
    else superCheck (some v)

/-- `Gantry.check_value` (mirror.py lines 131-143): raise `PermissionError`
when the `decoupled` readback is set, then let `OMMotor` check the value. -/
def gantryCheckValue (decoupled : Bool)
    (superCheck : Option PyFloat → Except CheckErr Unit)
    (pos : Option PyFloat) : Except CheckErr Unit :=
  if decoupled then .error .permissionErr
  else omCheckValue superCheck pos

/-- Modelled from the spec: the move path around a value check — ophyd's
positioner protocol (external to this repository) runs `check_value`
synchronously and only on success performs the default write (spec
sections 4.2 and 7).  Returns the writes performed and the outcome. -/
def moveWithCheck (check : Except CheckErr Unit)
    (writes : List (String × ℚ)) : List (String × ℚ) × Except CheckErr Unit :=
  match check with
  | .error e => ([], .error e)
  | .ok _ => (writes, .ok ())

/-- `PointingMirror.check_value` (mirror.py lines 263-272): raise
`PermissionError` when the X gantry `decoupled` readback is set, then let
the state positioner check the state `superCheck` (external `inout.py`). -/
def pointingMirrorCheckValue (xDecoupled : Bool)
    (superCheck : Nat → Except CheckErr Unit)
    (pos : Nat) : Except CheckErr Unit :=
  if xDecoupled then .error .permissionErr
  else superCheck pos

/-! ## `pcdsdevices/mirror.py`: PointingMirror branching -/

/-- The beamline-routing fields of a `PointingMirror`: the `in_lines` /
`out_lines` lists set in `__init__` (mirror.py lines 235-239) and the
`inserted` / `removed` readbacks inherited from `InOutRecordPositioner`
(external to this repository). -/
structure PointingMirror where
  in_lines : List String
  out_lines : List String
  inserted : Bool
  removed : Bool

/-- `PointingMirror.destination` (mirror.py lines 241-254). -/
def destination (pm : PointingMirror) : List String :=
  if pm.inserted ∧ ¬pm.removed then pm.in_lines
  else if pm.removed ∧ ¬pm.inserted then pm.out_lines
  else []

/-- `PointingMirror.branches` (mirror.py lines 256-261). -/
def branches (pm : PointingMirror) : List String :=
  pm.in_lines ++ pm.out_lines

/-! ## Theorems -/

/-- C2: for the two-signal positioner `LimCls` with rules
`lowlim:{0:'in',1:'defer'}` and `highlim:{0:'out',1:'defer'}`, the derived
position is Unknown at (1,1), the out state at (1,0), the in state at (0,1),
and Unknown at (0,0) — exactly as
`tests/test_state.py::test_pvstate_positioner_logic` asserts. -/
theorem C2_limcls_truth_table :
    limPosition 1 1 = "Unknown" ∧ limPosition 1 0 = "OUT" ∧
    limPosition 0 1 = "IN" ∧ limPosition 0 0 = "Unknown" := by
  decide

/-- C1 counterexample: at raw values (lowlim=1, highlim=0) the tokens are a
partial defer — `lowlim` defers while `highlim` names the state `out` — yet
resolution yields `out`, not `Unknown` as the claim's partial-defer clause
states (and as `test_pvstate_positioner_logic` line 78 confirms: the
reported position is `OUT`). -/
theorem C1_partial_defer_counterexample :
    lowlimRule 1 = some "defer" ∧ highlimRule 0 = some "out" ∧
    limResolve 1 0 = "out" ∧ limResolve 1 0 ≠ "Unknown" := by
  decide

/-- Reduction of `resolveTokens` when some token is unmapped. -/
theorem resolveTokens_of_any_none {tokens : List (Option String)}
    (h : (tokens.any fun t => t = none) = true) :
    resolveTokens tokens = "Unknown" := by
  rw [resolveTokens, if_pos h]

/-- Reduction of `resolveTokens` when every raw value is mapped and there
is no non-defer token. -/
theorem resolveTokens_of_nil {tokens : List (Option String)}
    (hany : (tokens.any fun t => t = none) = false)
    (hnamed : namedTokens tokens = []) :
    resolveTokens tokens = "Unknown" := by
  rw [resolveTokens, hany, hnamed]
  rfl

/-- Reduction of `resolveTokens` when every raw value is mapped and the
non-defer tokens are `x :: rest`. -/
theorem resolveTokens_of_cons {tokens : List (Option String)} {x : String}
    {rest : List String}
    (hany : (tokens.any fun t => t = none) = false)
    (hnamed : namedTokens tokens = x :: rest) :
    resolveTokens tokens =
      if rest.all (fun t => t = x) then x else "Unknown" := by
  rw [resolveTokens, hany, hnamed]
  rfl

/-- C1 (amended): an unmapped raw value yields Unknown; all-defer yields
Unknown (no further rule tier exists); when no raw value is unmapped and the
non-defer tokens are nonempty and unanimously the state `s`, the result is
`s` — even when other tokens defer; and any disagreement among the
non-defer tokens yields Unknown. -/
theorem C1_composite_state_resolution (tokens : List (Option String)) :
    ((∃ t ∈ tokens, t = none) → resolveTokens tokens = "Unknown")
    ∧ ((∀ t ∈ tokens, t = some "defer") → resolveTokens tokens = "Unknown")
    ∧ (∀ s : String, s ≠ "defer" → (∀ t ∈ tokens, t ≠ none) →
        namedTokens tokens ≠ [] → (∀ x ∈ namedTokens tokens, x = s) →
        resolveTokens tokens = s)
    ∧ (∀ s1 s2 : String, s1 ∈ namedTokens tokens → s2 ∈ namedTokens tokens →
        s1 ≠ s2 → resolveTokens tokens = "Unknown") := by
  refine ⟨?_, ?_, ?_, ?_⟩
  · intro h
    obtain ⟨t, ht, rfl⟩ := h
    refine resolveTokens_of_any_none ?_
    rw [List.any_eq_true]
    exact ⟨none, ht, rfl⟩
  · intro h
    have hany : (tokens.any fun t => t = none) = false := by
      rw [List.any_eq_false]
      intro t ht
      have ht' := h t ht
      subst ht'
      decide
    have hnamed : namedTokens tokens = [] := by
      rw [namedTokens, List.filter_eq_nil_iff]
      intro a ha
      rw [List.mem_filterMap] at ha
      obtain ⟨t, ht, hta⟩ := ha
      have ht' := h t ht
      subst ht'
      simp only [id] at hta
      cases hta
      decide
    exact resolveTokens_of_nil hany hnamed
  · intro s _ hmapped hne hall
    have hany : (tokens.any fun t => t = none) = false := by
      rw [List.any_eq_false]
      intro t ht
      simp only [decide_eq_true_eq]
      exact hmapped t ht
    cases hcase : namedTokens tokens with
    | nil => exact absurd hcase hne
    | cons x rest =>
      rw [resolveTokens_of_cons hany hcase]
      have hx : x = s := hall x (by rw [hcase]; exact List.mem_cons_self x rest)
      have hrest : (rest.all fun t => t = x) = true := by
        rw [List.all_eq_true]
        intro t ht
        simp only [decide_eq_true_eq]
        have h1 : t = s := hall t (by rw [hcase]; exact List.mem_cons_of_mem x ht)
        rw [h1, hx]
      rw [if_pos hrest]
      exact hx
  · intro s1 s2 h1 h2 hne
    by_cases hnone : (tokens.any fun t => t = none) = true
    · exact resolveTokens_of_any_none hnone
    · have hany : (tokens.any fun t => t = none) = false := by
        cases hb : tokens.any fun t => t = none with
        | true => exact absurd hb hnone
        | false => rfl
      cases hcase : namedTokens tokens with
      | nil =>
        rw [hcase] at h1
        exact absurd h1 (List.not_mem_nil s1)
      | cons x rest =>
        rw [resolveTokens_of_cons hany hcase]
        rw [hcase] at h1 h2
        by_cases hall : (rest.all fun t => t = x) = true
        · exfalso
          rw [List.all_eq_true] at hall
          have e1 : s1 = x := by
            rcases List.mem_cons.mp h1 with h | h
            · exact h
            · exact of_decide_eq_true (hall s1 h)
          have e2 : s2 = x := by
            rcases List.mem_cons.mp h2 with h | h
            · exact h
            · exact of_decide_eq_true (hall s2 h)
          exact hne (e1.trans e2.symm)
        · rw [if_neg hall]

/-- C1 witness: concrete instances of the amended resolution rule — a
partial defer with unanimous `out` resolves to `out`; all-defer, a
conflict, and an unmapped value each resolve to Unknown. -/
theorem C1_composite_state_resolution_witness :
    resolveTokens [some "defer", some "out"] = "out" ∧
    resolveTokens [some "defer", some "defer"] = "Unknown" ∧
    resolveTokens [some "in", some "out"] = "Unknown" ∧
    resolveTokens [some "in", none] = "Unknown" := by
  refine ⟨?_, ?_, ?_, ?_⟩
  · exact (C1_composite_state_resolution [some "defer", some "out"]).2.2.1
      "out" (by decide) (by decide) (by decide) (by decide)
  · exact (C1_composite_state_resolution [some "defer", some "defer"]).2.1
      (by decide)
  · exact (C1_composite_state_resolution [some "in", some "out"]).2.2.2
      "in" "out" (by decide) (by decide) (by decide)
  · exact (C1_composite_state_resolution [some "in", none]).1
      ⟨none, by decide, rfl⟩

/-- C4: when the decouple flag reads true, both `Gantry.check_value` and
`PointingMirror.check_value` raise `PermissionError` regardless of the
requested position and of what the delegated superclass check would say, so
a move around the check performs no signal writes. -/
theorem C4_decoupled_move_blocked
    (superLimit : Option PyFloat → Except CheckErr Unit)
    (superState : Nat → Except CheckErr Unit)
    (pos : Option PyFloat) (stTarget : Nat)
    (writesG writesP : List (String × ℚ)) :
    gantryCheckValue true superLimit pos = .error .permissionErr
    ∧ moveWithCheck (gantryCheckValue true superLimit pos) writesG
        = ([], .error .permissionErr)
    ∧ pointingMirrorCheckValue true superState stTarget = .error .permissionErr
    ∧ moveWithCheck (pointingMirrorCheckValue true superState stTarget) writesP
        = ([], .error .permissionErr) :=
  ⟨rfl, rfl, rfl, rfl⟩

/-- C9: `OMMotor.check_value` raises `ValueError` whenever the position is
`None`, `NaN`, or an infinity — independently of the soft-limit check, which
never runs — and on every finite value that branch is not taken and the
check is exactly the delegated `PVPositioner` check. -/
theorem C9_ommotor_check_value
    (superCheck : Option PyFloat → Except CheckErr Unit)
    (position : Option PyFloat) :
    ((position = none ∨ position = some .nan ∨
        position = some .inf ∨ position = some .ninf) →
      omCheckValue superCheck position = .error .valueErr)
    ∧ (∀ x : ℚ, position = some (.finite x) →
        omCheckValue superCheck position = superCheck (some (.finite x))) := by
  constructor
  · rintro (rfl | rfl | rfl | rfl) <;> rfl
  · rintro x rfl
    rfl

/-- C9 witness: `NaN` is rejected with `ValueError` even under a
permissive limit check, and a finite value is passed to the limit check. -/
theorem C9_ommotor_check_value_witness :
    omCheckValue (fun _ => Except.ok ()) (some .nan) = .error .valueErr ∧
    omCheckValue (fun _ => Except.ok ()) (some (.finite 1))
      = Except.ok () :=
  ⟨(C9_ommotor_check_value (fun _ => Except.ok ()) (some .nan)).1 (Or.inr (Or.inl rfl)),
   (C9_ommotor_check_value (fun _ => Except.ok ()) (some (.finite 1))).2 1 rfl⟩

/-- C10: `branches` is always `in_lines ++ out_lines`; `destination` is
`in_lines` when inserted and not removed, `out_lines` when removed and not
inserted, and `[]` otherwise — hence always a sub-list of `branches`. -/
theorem C10_destination_within_branches (pm : PointingMirror) :
    branches pm = pm.in_lines ++ pm.out_lines
    ∧ (pm.inserted ∧ ¬pm.removed → destination pm = pm.in_lines)
    ∧ (pm.removed ∧ ¬pm.inserted → destination pm = pm.out_lines)
    ∧ (¬(pm.inserted ∧ ¬pm.removed) ∧ ¬(pm.removed ∧ ¬pm.inserted) →
        destination pm = [])
    ∧ (destination pm).Sublist (branches pm) := by
  refine ⟨rfl, ?_, ?_, ?_, ?_⟩
  · intro h
    rw [destination, if_pos h]
  · intro h
    rw [destination, if_neg (fun h2 => h.2 h2.1), if_pos h]
  · intro h
    rw [destination, if_neg h.1, if_neg h.2]
  · rw [destination, branches]
    split
    · exact List.sublist_append_left pm.in_lines pm.out_lines
    · split
      · exact List.sublist_append_right pm.in_lines pm.out_lines
      · exact List.nil_sublist _

/-- C10 witness: an inserted, non-removed mirror routes to its in-lines. -/
theorem C10_destination_within_branches_witness :
    destination ⟨["MEC"], ["CXI"], true, false⟩ = ["MEC"] :=
  (C10_destination_within_branches ⟨["MEC"], ["CXI"], true, false⟩).2.1
    (by decide)

/-- Lookup of `Unknown` always hits the reserved head entry of the enum. -/
theorem nameToIndex_unknown (m : StateModel) :
    nameToIndex m "Unknown" = some 0 := by
  rw [nameToIndex, statesEnum, List.find?_cons_of_pos _ (by decide)]
  rfl

/-- C3: a move request whose target name is not in the alias table, or
targets `Unknown`, raises a validation error and performs zero signal
writes (a defer-only token is never in the table — see the Unknown/defer
lookup theorem — so it falls under the first disjunct). -/
theorem C3_invalid_move_no_writes (m : StateModel) (s : String)
    (h : nameToIndex m s = none ∨ s = "Unknown") :
    spMove m (.name s) = ([], .error .validation) := by
  rcases h with h | rfl
  · simp only [spMove, checkStateTarget, h]
  · simp only [spMove, checkStateTarget, nameToIndex_unknown]
    rfl

/-- C3 witness: on `LimCls`, moving to the unmapped name `asdfe`, to the
internal token `defer`, or to `Unknown` each error out with zero writes. -/
theorem C3_invalid_move_no_writes_witness :
    nameToIndex limModel "asdfe" = none ∧
    spMove limModel (.name "asdfe") = ([], .error .validation) ∧
    spMove limModel (.name "defer") = ([], .error .validation) ∧
    spMove limModel (.name "Unknown") = ([], .error .validation) :=
  ⟨by decide,
   C3_invalid_move_no_writes limModel "asdfe" (Or.inl (by decide)),
   C3_invalid_move_no_writes limModel "defer" (Or.inl (by decide)),
   C3_invalid_move_no_writes limModel "Unknown" (Or.inr rfl)⟩

/-- An alias surface name comes from some row of the alias table. -/
theorem mem_aliasesOf {m : StateModel} {s a : String}
    (ha : a ∈ aliasesOf m s) : ∃ p ∈ m.aliases, a ∈ p.2 := by
  rw [aliasesOf] at ha
  cases hf : m.aliases.find? (fun p => p.1 = s) with
  | none =>
    rw [hf] at ha
    exact absurd ha (List.not_mem_nil a)
  | some p =>
    rw [hf] at ha
    exact ⟨p, List.mem_of_find?_eq_some hf, ha⟩

/-- Every name appearing in the enum is `Unknown`, a state name from
`states_list`, or an alias surface name from the alias table. -/
theorem mem_statesEnum {m : StateModel} {e : String × Nat}
    (he : e ∈ statesEnum m) :
    e = ("Unknown", 0) ∨ some e.1 ∈ m.statesList ∨
      ∃ p ∈ m.aliases, e.1 ∈ p.2 := by
  rw [statesEnum] at he
  rcases List.mem_cons.mp he with h | h
  · exact Or.inl h
  · rw [List.mem_flatMap] at h
    obtain ⟨a, ha, hea⟩ := h
    have hmem : a.2 ∈ m.statesList :=
      List.getElem?_mem (List.mem_enum_iff_getElem?.mp ha)
    cases hs : a.2 with
    | none =>
      rw [hs] at hea
      exact absurd hea (List.not_mem_nil e)
    | some s =>
      rw [hs] at hea hmem
      rcases List.mem_cons.mp hea with h1 | h1
      · refine Or.inr (Or.inl ?_)
        rw [h1]
        exact hmem
      · rw [List.mem_map] at h1
        obtain ⟨al, hal, rfl⟩ := h1
        exact Or.inr (Or.inr (mem_aliasesOf hal))

/-- C7: in every state model whose states and aliases avoid the internal
token `defer` (the spec's construction invariant: `defer` never becomes a
state and never an alias), the lookup of `Unknown` succeeds with the
reserved index 0 while the lookup of `defer` fails. -/
theorem C7_unknown_defer_lookup (m : StateModel)
    (hstates : ∀ s ∈ m.statesList, s ≠ some "defer")
    (halias : ∀ p ∈ m.aliases, "defer" ∉ p.2) :
    nameToIndex m "Unknown" = some 0 ∧ nameToIndex m "defer" = none := by
  refine ⟨nameToIndex_unknown m, ?_⟩
  have hfind : (statesEnum m).find? (fun p => p.1 = "defer") = none := by
    rw [List.find?_eq_none]
    intro e he
    simp only [decide_eq_true_eq]
    intro hname
    rcases mem_statesEnum he with h | h | h
    · rw [h] at hname
      exact absurd hname (by decide)
    · rw [hname] at h
      exact hstates _ h rfl
    · obtain ⟨p, hp, hmem⟩ := h
      rw [hname] at hmem
      exact halias p hp hmem
  rw [nameToIndex, hfind]
  rfl

/-- C7 witness: on `LimCls` the `Unknown` lookup succeeds at index 0 and
the `defer` lookup fails, as `test_pvstate_positioner_logic` asserts. -/
theorem C7_unknown_defer_lookup_witness :
    nameToIndex limModel "Unknown" = some 0 ∧
    nameToIndex limModel "defer" = none :=
  C7_unknown_defer_lookup limModel (by decide) (by decide)

/-- C8 counterexample: in the `IntState` model the alias `in` resolves to
index 2 (the index of `UNO`), not to index 1 as the claim states — index 1
is the unused `None` slot of `states_list`, as the initial signal value 2
reading back as `IN` in `test_state_positioner_basic` confirms. -/
theorem C8_alias_index_counterexample :
    nameToIndex intModel "in" = some 2 ∧
    nameToIndex intModel "in" ≠ some 1 ∧
    positionOf intModel 2 = "IN" := by
  refine ⟨by decide, by decide, by decide⟩

/-- C8 (amended): in the 3-state model `[None, 'UNO', 'OUT']` with alias
`UNO → {IN, in}`, commanding index 3 or the name `OUT` writes index 3 and
the position reads `OUT`, and commanding by the alias `in` resolves to
index 2 — the 1-based position of `UNO` shifted past the reserved
`Unknown` slot 0 and the unused `None` slot 1. -/
theorem C8_intstate_moves :
    spMove intModel (.idx 3) = ([("state", 3)], .ok 3)
    ∧ positionOf intModel 3 = "OUT"
    ∧ spMove intModel (.name "OUT") = ([("state", 3)], .ok 3)
    ∧ nameToIndex intModel "in" = some 2 :=
  ⟨rfl, by decide, rfl, by decide⟩

/-- A settled status ignores every further event. -/
theorem statusStep_done {cb : Nat} {target : String} {st : StatusState}
    (h : st.done = true) (e : StatusEvent) :
    statusStep cb target st e = st := by
  rw [statusStep.eq_def, if_pos h]

/-- A settled status stays put over any event sequence. -/
theorem runStatus_done {cb : Nat} {target : String} {st : StatusState}
    (h : st.done = true) (events : List StatusEvent) :
    runStatus cb target st events = st := by
  induction events with
  | nil => rfl
  | cons e es ih =>
    rw [runStatus, List.foldl_cons, statusStep_done h]
    exact ih

/-- A notification that does not carry the target state leaves the status
unchanged, settled or not. -/
theorem statusStep_notify_ne {cb : Nat} {target s : String}
    (hs : s ≠ target) (st : StatusState) :
    statusStep cb target st (.notify s) = st := by
  by_cases hd : st.done = true
  · exact statusStep_done hd _
  · simp [statusStep, hd, hs]

/-- Notifications that never carry the target leave the status unchanged. -/
theorem runStatus_notify_ne {cb : Nat} {target : String} (st : StatusState)
    (l : List String) :
    (∀ s ∈ l, s ≠ target) →
    runStatus cb target st (l.map StatusEvent.notify) = st := by
  induction l with
  | nil => intro _; rfl
  | cons s rest ih =>
    intro hl
    rw [List.map_cons, runStatus, List.foldl_cons,
      statusStep_notify_ne (hl s (List.mem_cons_self s rest))]
    exact ih (fun x hx => hl x (List.mem_cons_of_mem s hx))

/-- Processing events in sequence composes. -/
theorem runStatus_append (cb : Nat) (target : String) (st : StatusState)
    (l1 l2 : List StatusEvent) :
    runStatus cb target st (l1 ++ l2)
      = runStatus cb target (runStatus cb target st l1) l2 := by
  rw [runStatus, runStatus, runStatus, List.foldl_append]

/-- A pending status settles success on the notification carrying the
target, unsubscribes its callback, and ignores everything after. -/
theorem runStatus_settles {cb : Nat} {target : String} (st : StatusState)
    (post : List String) (hd : st.done = false) :
    runStatus cb target st ((target :: post).map StatusEvent.notify)
      = ⟨st.subs.filter (fun c => c ≠ cb), true, true⟩ := by
  rw [List.map_cons, runStatus, List.foldl_cons]
  have hstep : statusStep cb target st (.notify target)
      = ⟨st.subs.filter (fun c => c ≠ cb), true, true⟩ := by
    simp [statusStep, hd]
  rw [hstep]
  exact runStatus_done rfl _

/-- C5: a StateStatus created while the derived state differs from its
target remains pending across any number of notifications whose state
differs from the target, and settles as success exactly on the first
notification carrying the target — staying settled through any later
notifications. -/
theorem C5_status_settles_on_first_target (subs : List Nat) (cb : Nat)
    (target current : String) (pre post : List String)
    (hcur : current ≠ target) (hpre : ∀ s ∈ pre, s ≠ target) :
    (runStatus cb target (mkStatus subs cb target current)
        (pre.map StatusEvent.notify)).done = false
    ∧ (runStatus cb target (mkStatus subs cb target current)
        ((pre ++ target :: post).map StatusEvent.notify)).done = true
    ∧ (runStatus cb target (mkStatus subs cb target current)
        ((pre ++ target :: post).map StatusEvent.notify)).success = true := by
  have h0 : mkStatus subs cb target current = ⟨cb :: subs, false, false⟩ := by
    rw [mkStatus, if_neg hcur]
  have h1 : runStatus cb target (mkStatus subs cb target current)
      (pre.map StatusEvent.notify) = ⟨cb :: subs, false, false⟩ := by
    rw [h0]
    exact runStatus_notify_ne _ pre hpre
  have h2 : runStatus cb target (mkStatus subs cb target current)
      ((pre ++ target :: post).map StatusEvent.notify)
      = ⟨(cb :: subs).filter (fun c => c ≠ cb), true, true⟩ := by
    rw [List.map_append, runStatus_append, h0,
      runStatus_notify_ne _ pre hpre, runStatus_settles _ post rfl]
  exact ⟨by rw [h1], by rw [h2], by rw [h2]⟩

/-- C5 witness: a status for target `IN` stays pending over `OUT` and
`Unknown` notifications and is settled as success once `IN` arrives, even
with a later `OUT` notification. -/
theorem C5_status_settles_witness :
    (runStatus 7 "IN" (mkStatus [] 7 "IN" "Unknown")
        (["OUT", "Unknown"].map StatusEvent.notify)).done = false
    ∧ (runStatus 7 "IN" (mkStatus [] 7 "IN" "Unknown")
        ((["OUT", "Unknown"] ++ "IN" :: ["OUT"]).map StatusEvent.notify)).done
        = true
    ∧ (runStatus 7 "IN" (mkStatus [] 7 "IN" "Unknown")
        ((["OUT", "Unknown"] ++ "IN" :: ["OUT"]).map
          StatusEvent.notify)).success = true :=
  C5_status_settles_on_first_target [] 7 "IN" "Unknown" ["OUT", "Unknown"]
    ["OUT"] (by decide) (by decide)

/-- One event preserves the settlement invariant: a settled status holds no
subscription. -/
theorem statusStep_not_mem {cb : Nat} {target : String} {st : StatusState}
    (e : StatusEvent) (h : st.done = true → cb ∉ st.subs) :
    (statusStep cb target st e).done = true →
      cb ∉ (statusStep cb target st e).subs := by
  by_cases hd : st.done = true
  · rw [statusStep_done hd]
    exact h
  · have hd' : st.done = false := by
      cases hb : st.done with
      | true => exact absurd hb hd
      | false => rfl
    have hfilter : cb ∉ st.subs.filter (fun c => c ≠ cb) := by
      intro hmem
      rw [List.mem_filter] at hmem
      exact (of_decide_eq_true hmem.2) rfl
    cases e with
    | notify s =>
      by_cases hs : s = target
      · have hstep : statusStep cb target st (.notify s)
            = ⟨st.subs.filter (fun c => c ≠ cb), true, true⟩ := by
          simp [statusStep, hd', hs]
        rw [hstep]
        intro _
        exact hfilter
      · rw [statusStep_notify_ne hs]
        exact h
    | timeoutExpired =>
      have hstep : statusStep cb target st .timeoutExpired
          = ⟨st.subs.filter (fun c => c ≠ cb), true, false⟩ := by
        simp [statusStep, hd']
      rw [hstep]
      intro _
      exact hfilter
    | cancel =>
      have hstep : statusStep cb target st .cancel
          = ⟨st.subs.filter (fun c => c ≠ cb), true, false⟩ := by
        simp [statusStep, hd']
      rw [hstep]
      intro _
      exact hfilter

/-- The settlement invariant is preserved across any event sequence. -/
theorem runStatus_not_mem {cb : Nat} {target : String}
    (events : List StatusEvent) (st : StatusState)
    (h : st.done = true → cb ∉ st.subs) :
    (runStatus cb target st events).done = true →
      cb ∉ (runStatus cb target st events).subs := by
  induction events generalizing st with
  | nil => exact h
  | cons e es ih => exact ih _ (statusStep_not_mem e h)

/-- C6: after a StateStatus with a fresh callback handle settles — by the
target arriving, by timeout, or by cancellation, after any event history —
its callback is absent from the positioner's subscriber set. -/
theorem C6_settled_status_unsubscribed (subs : List Nat) (cb : Nat)
    (target current : String) (events : List StatusEvent)
    (hfresh : cb ∉ subs)
    (hdone : (runStatus cb target (mkStatus subs cb target current)
        events).done = true) :
    cb ∉ (runStatus cb target (mkStatus subs cb target current)
        events).subs := by
  refine runStatus_not_mem events _ ?_ hdone
  intro hd
  rw [mkStatus] at hd ⊢
  by_cases hc : current = target
  · rw [if_pos hc] at hd ⊢
    exact hfresh
  · rw [if_neg hc] at hd
    exact Bool.noConfusion hd

/-- C6 witness: a cancelled status for an unreached target has no live
subscription left. -/
theorem C6_settled_status_unsubscribed_witness :
    (runStatus 7 "IN" (mkStatus [] 7 "IN" "Unknown")
        [StatusEvent.cancel]).done = true
    ∧ 7 ∉ (runStatus 7 "IN" (mkStatus [] 7 "IN" "Unknown")
        [StatusEvent.cancel]).subs :=
  ⟨by decide,
   C6_settled_status_unsubscribed [] 7 "IN" "Unknown" [StatusEvent.cancel]
     (by decide) (by decide)⟩

end Pcds
